import Mathlib

/-!
Shallow embedding of `src/c/open_transaction.c`, the open-transaction
signature lock script for the CKB VM, together with proofs about the
claims of its specification.

Modelling conventions:
* Bytes are `Nat` values (concrete inputs use values below 256).
* Host syscalls are fields of an `Env` structure.  A syscall either
  succeeds with the full byte contents of the requested object
  (`HostRead.ok`) or fails with a nonzero CKB error code
  (`HostRead.err`); the loader wrappers in the C file report the full
  object length through `*len`, which the model recovers as
  `bytes.length`.
* The collections that the C code walks with an index loop terminated by
  `CKB_INDEX_OUT_OF_BOUND` (group inputs, group witnesses, transaction
  witnesses) are modelled as finite lists; reading past the end of the
  list is the out-of-bound condition, matching a finite transaction.
* The BLAKE2b state is modelled by the stream of absorbed bytes
  (`blake2b_update` is concatenation); the 32-byte digest is produced by
  the environment function `blake2b`, an abstract model of the library
  primitive.
* secp256k1 primitives are likewise abstract environment functions with
  the same success/failure interface the C code consumes.
* The CKB VM runs deterministically with zero-initialized memory, so
  reads of uninitialized stack bytes performed by the C code (they do
  exist, see `uninitSegTxHashBytes` and `byteAt`) are modelled as zeros.
-/

namespace OpenTx

/-- CKB syscall return code for success. -/
def CKB_SUCCESS : Int := 0

/-- CKB syscall return code signalling an index past the last element. -/
def CKB_INDEX_OUT_OF_BOUND : Int := 1

/-- CKB return code produced by the `ckb_checked_load_*` wrappers when the
reported length exceeds the caller's buffer. -/
def CKB_LENGTH_NOT_ENOUGH : Int := 3

/-- Error code `ERROR_ARGUMENTS_LEN` from the source. -/
def ERROR_ARGUMENTS_LEN : Int := -1

/-- Error code `ERROR_ENCODING` from the source. -/
def ERROR_ENCODING : Int := -2

/-- Error code `ERROR_SYSCALL` from the source. -/
def ERROR_SYSCALL : Int := -3

/-- Error code `ERROR_SECP_RECOVER_PUBKEY` from the source. -/
def ERROR_SECP_RECOVER_PUBKEY : Int := -11

/-- Error code `ERROR_SECP_PARSE_SIGNATURE` from the source. -/
def ERROR_SECP_PARSE_SIGNATURE : Int := -14

/-- Error code `ERROR_SECP_SERIALIZE_PUBKEY` from the source. -/
def ERROR_SECP_SERIALIZE_PUBKEY : Int := -15

/-- Error code `ERROR_SCRIPT_TOO_LONG` from the source. -/
def ERROR_SCRIPT_TOO_LONG : Int := -21

/-- Error code `ERROR_WITNESS_SIZE` from the source. -/
def ERROR_WITNESS_SIZE : Int := -22

/-- Error code `ERROR_PUBKEY_BLAKE160_HASH` from the source. -/
def ERROR_PUBKEY_BLAKE160_HASH : Int := -31

/-- Error code `ERROR_INVALID_LABEL` from the source. -/
def ERROR_INVALID_LABEL : Int := -50

/-- Buffer size `WITNESS_SIZE` (32 KiB) from the source. -/
def WITNESS_SIZE : Nat := 32768

/-- Buffer size `SCRIPT_SIZE` (32 KiB) from the source. -/
def SCRIPT_SIZE : Nat := 32768

/-- Batch window `ONE_BATCH_SIZE` (16 KiB) from the source. -/
def ONE_BATCH_SIZE : Nat := 16384

/-- Buffer size `INPUT_SIZE` (4 KiB) from the source. -/
def INPUT_SIZE : Nat := 4096

/-- Signature length `SIGNATURE_SIZE` from the source. -/
def SIGNATURE_SIZE : Nat := 65

/-- Result of a host syscall: the full bytes of the requested object, or a
nonzero CKB error code (`1` is `CKB_INDEX_OUT_OF_BOUND`). -/
inductive HostRead where
  | ok (bytes : List Nat)
  | err (code : Int)
deriving DecidableEq

/-- Data sources used by the coverage interpreter (`CKB_SOURCE_INPUT` and
`CKB_SOURCE_OUTPUT`); the group-input source is modelled separately by the
finite lists of `Env`. -/
inductive CellSrc where
  | input
  | output
deriving DecidableEq

/-- Cell fields loaded through `ckb_load_cell_by_field`. -/
inductive CellField where
  | capacity
  | typeScript
  | lockScript
deriving DecidableEq

/-- Input fields loaded through `ckb_load_input_by_field`. -/
inductive InputField where
  | since
  | outPoint
deriving DecidableEq

/-- The host environment: everything the verifier can observe.  Indexed
collections walked by out-of-bound-terminated loops are finite lists whose
entries can individually be host failures. -/
structure Env where
  /-- Witnesses of the current script group, by group index. -/
  groupWitnesses : List HostRead
  /-- Transaction-wide witnesses, by absolute index (source `INPUT`). -/
  inputWitnesses : List HostRead
  /-- Serialized inputs of the current script group, by group index. -/
  groupInputs : List HostRead
  /-- `ckb_load_input` with source `CKB_SOURCE_INPUT`. -/
  loadInput : Nat → HostRead
  /-- `ckb_load_cell`. -/
  loadCell : CellSrc → Nat → HostRead
  /-- `ckb_load_cell_data`. -/
  loadCellData : CellSrc → Nat → HostRead
  /-- `ckb_load_cell_by_field`. -/
  loadCellByField : CellSrc → Nat → CellField → HostRead
  /-- `ckb_load_input_by_field`. -/
  loadInputByField : CellSrc → Nat → InputField → HostRead
  /-- `ckb_load_tx_hash`. -/
  txHash : HostRead
  /-- `ckb_load_script`. -/
  script : HostRead
  /-- `ckb_calculate_inputs_len`. -/
  inputsLen : Nat
  /-- Return code of `ckb_secp256k1_custom_load_data`. -/
  secpDataRet : Int
  /-- Return code of `ckb_secp256k1_custom_verify_only_initialize`. -/
  secpInitRet : Int
  /-- `secp256k1_ecdsa_recoverable_signature_parse_compact` on the 64
  signature bytes and the recovery id: does parsing succeed. -/
  secpParse : List Nat → Nat → Bool
  /-- `secp256k1_ecdsa_recover` on the parsed signature (represented by its
  64 bytes and recovery id) and the 32-byte message; yields an abstract
  public-key handle on success. -/
  secpRecover : List Nat → Nat → List Nat → Option Nat
  /-- `secp256k1_ec_pubkey_serialize` in compressed form; yields the
  serialized public-key bytes on success. -/
  secpSerialize : Nat → Option (List Nat)
  /-- BLAKE2b-256 with the CKB personalization, as a function from the
  absorbed byte stream to the 32-byte digest. -/
  blake2b : List Nat → List Nat

/-- Read one byte of a buffer.  Reads past the end of the loaded data model
the deterministic contents of uninitialized or adjacent VM stack memory,
which the zero-initializing CKB VM presents as zeros. -/
def byteAt (w : List Nat) (j : Nat) : Nat := w.getD j 0

/-- Contiguous slice `[off, off + n)` of a buffer. -/
def slice (w : List Nat) (off n : Nat) : List Nat := (w.drop off).take n

/-- Little-endian 32-bit read at `off`, as performed by the molecule
reader's `mol_unpack_number`. -/
def u32At (w : List Nat) (off : Nat) : Nat :=
  byteAt w off + 256 * byteAt w (off + 1) + 65536 * byteAt w (off + 2) +
    16777216 * byteAt w (off + 3)

/-- Little-endian 32-bit serialization of `n`, used to build concrete
molecule buffers in the proofs. -/
def u32leBytes (n : Nat) : List Nat :=
  [n % 256, n / 256 % 256, n / 65536 % 256, n / 16777216 % 256]

/-- The 8 bytes a `blake2b_update(ctx, &len, sizeof(uint64_t))` call
absorbs for a little-endian `uint64_t` length. -/
def u64leBytes (n : Nat) : List Nat :=
  [n % 256, n / 256 % 256, n / 65536 % 256, n / 16777216 % 256,
   n / 4294967296 % 256, n / 1099511627776 % 256,
   n / 281474976710656 % 256, n / 72057594037927936 % 256]

/-- Bytes absorbed from an 8-byte stack buffer that received `b` from the
host: the loaded bytes followed by the remaining (zero) buffer bytes.  Used
for the `capacity` and `since` fields, whose loads use 8-byte buffers. -/
def take8pad (b : List Nat) : List Nat :=
  b.take 8 ++ List.replicate (8 - b.length) 0

/-- Molecule `Bytes` (a fixvec of bytes) verification for the segment
`[off, off + sz)`: the stored count plus the 4-byte header must equal the
segment size. -/
def bytesVerify (w : List Nat) (off sz : Nat) : Prop :=
  4 ≤ sz ∧ u32At w off = sz - 4

instance (w : List Nat) (off sz : Nat) : Decidable (bytesVerify w off sz) :=
  inferInstanceAs (Decidable (_ ∧ _))

/-- Molecule `BytesOpt` verification: either absent (empty segment) or a
valid `Bytes`. -/
def bytesOptVerify (w : List Nat) (off sz : Nat) : Prop :=
  sz = 0 ∨ bytesVerify w off sz

instance (w : List Nat) (off sz : Nat) : Decidable (bytesOptVerify w off sz) :=
  inferInstanceAs (Decidable (_ ∨ _))

/-- `MolReader_WitnessArgs_verify` on the whole witness buffer: a molecule
table with exactly three `BytesOpt` fields (`lock`, `input_type`,
`output_type`). -/
def witnessArgsVerify (w : List Nat) : Prop :=
  4 ≤ w.length ∧ u32At w 0 = w.length ∧ u32At w 4 = 16 ∧
    16 ≤ u32At w 8 ∧ u32At w 8 ≤ u32At w 12 ∧ u32At w 12 ≤ w.length ∧
    bytesOptVerify w 16 (u32At w 8 - 16) ∧
    bytesOptVerify w (u32At w 8) (u32At w 12 - u32At w 8) ∧
    bytesOptVerify w (u32At w 12) (w.length - u32At w 12)

instance (w : List Nat) : Decidable (witnessArgsVerify w) :=
  inferInstanceAs (Decidable (_ ∧ _))

/-- `extract_witness_lock` from the source: verify the witness as a
`WitnessArgs`, require the `lock` field to be present, and return offset
and size of its raw bytes inside the witness buffer.  All failures are
`ERROR_ENCODING`, exactly as in `main` (which maps every nonzero result of
`extract_witness_lock` to `ERROR_ENCODING`). -/
def extract_witness_lock (w : List Nat) : Except Int (Nat × Nat) :=
  if witnessArgsVerify w then
    if u32At w 8 - 16 = 0 then .error ERROR_ENCODING
    else .ok (20, u32At w 16)
  else .error ERROR_ENCODING

/-- `MolReader_Script_verify` on a loaded script buffer: a molecule table
with fields `code_hash : Byte32`, `hash_type : byte`, `args : Bytes`. -/
def scriptVerify (b : List Nat) : Prop :=
  4 ≤ b.length ∧ u32At b 0 = b.length ∧ u32At b 4 = 16 ∧
    u32At b 4 ≤ u32At b 8 ∧ u32At b 8 ≤ u32At b 12 ∧
    u32At b 12 ≤ b.length ∧ u32At b 8 - u32At b 4 = 32 ∧
    u32At b 12 - u32At b 8 = 1 ∧ bytesVerify b (u32At b 12) (b.length - u32At b 12)

instance (b : List Nat) : Decidable (scriptVerify b) :=
  inferInstanceAs (Decidable (_ ∧ _))

/-- Segment returned by `MolReader_Script_get_code_hash`. -/
def codeHashSeg (b : List Nat) : List Nat :=
  slice b (u32At b 4) (u32At b 8 - u32At b 4)

/-- Segment returned by `MolReader_Script_get_hash_type`. -/
def hashTypeSeg (b : List Nat) : List Nat :=
  slice b (u32At b 8) (u32At b 12 - u32At b 8)

/-- Segment returned by `MolReader_Script_get_args` (the whole `Bytes`
field, header included, which is what `hash_script_fields` absorbs). -/
def argsSeg (b : List Nat) : List Nat :=
  slice b (u32At b 12) (b.length - u32At b 12)

/-- Raw content of the script `args` field
(`MolReader_Bytes_raw_bytes` applied to the `args` segment). -/
def argsRawBytes (b : List Nat) : List Nat :=
  slice b (u32At b 12 + 4) (u32At b (u32At b 12))

/-- `MolReader_OutPoint_verify`: an `OutPoint` is a fixed 36-byte struct
(32-byte `tx_hash` followed by the 4-byte `index`). -/
def outPointVerify (b : List Nat) : Prop := b.length = 36

instance (b : List Nat) : Decidable (outPointVerify b) :=
  inferInstanceAs (Decidable (_ = _))

/-- The serialized `tx_hash` field of an `OutPoint` buffer. -/
def outPointTxHash (b : List Nat) : List Nat := slice b 0 32

/-- The serialized 4-byte `index` field of an `OutPoint` buffer. -/
def outPointIndex (b : List Nat) : List Nat := slice b 32 4

/-- Result of a hashing stage: the bytes it absorbed into the BLAKE2b
session, and the error code it aborted with, if any. -/
abbrev StageRes := Option Int × List Nat

/-- Sequencing of hashing stages: a failed stage keeps its absorbed bytes
and short-circuits; a successful stage prepends its absorbed bytes to the
continuation. -/
def seqAbsorb (r : StageRes) (k : Unit → StageRes) : StageRes :=
  match r with
  | (some c, s) => (some c, s)
  | (none, s) => ((k ()).1, s ++ (k ()).2)

/-- The batched windowed absorption loop of `load_and_hash`: re-issue
positioned reads of the object `o` from `offset` in `ONE_BATCH_SIZE`
windows until the reported length is consumed.  The `fuel` argument bounds
the iteration count; since each window advances `offset` by at least one
byte, `fuel = o.length` always suffices (see `batchedGo_drop`). -/
def batchedGo (o : List Nat) : Nat → Nat → List Nat
  | 0, _ => []
  | fuel + 1, offset =>
    if offset < o.length then
      let cur := min (o.length - offset) ONE_BATCH_SIZE
      (o.drop offset).take cur ++ batchedGo o fuel (offset + cur)
    else []

/-- `load_and_hash` from the source: absorb a host object in 16 KiB
windows.  A loader failure is returned verbatim and absorbs nothing. -/
def load_and_hash (r : HostRead) : StageRes :=
  match r with
  | .err c => (some c, [])
  | .ok o =>
    let first := min o.length ONE_BATCH_SIZE
    (none, o.take first ++ batchedGo o o.length first)

/-- The mandatory group-input prefix loop of `main`: `hash_input` over the
group-input source at indices `0, 1, 2, …`; `CKB_INDEX_OUT_OF_BOUND`
terminates the loop, any other failure is propagated verbatim. -/
def hashGroupInputs : List HostRead → StageRes
  | [] => (none, [])
  | .err c :: _ => if c = CKB_INDEX_OUT_OF_BOUND then (none, []) else (some c, [])
  | .ok o :: rest =>
    seqAbsorb (load_and_hash (.ok o)) (fun _ => hashGroupInputs rest)

/-- The bytes of the successfully loaded group inputs that precede the
first host failure: what the group-input prefix loop absorbs. -/
def inputsBytesConcat : List HostRead → List Nat
  | [] => []
  | .err _ :: _ => []
  | .ok o :: rest => o ++ inputsBytesConcat rest

/-- `hash_script_fields` from the source, the single helper shared by the
type-script and lock-script selections: load the requested script field
through the checked loader, verify it as a molecule `Script`, and absorb
the sub-fields selected by the lock-position bits `0x10` (code_hash),
`0x20` (args) and `0x40` (hash_type), in declaration order.  Bits of
`lockMasks` outside these three are ignored. -/
def hash_script_fields (env : Env) (src : CellSrc) (idx : Nat)
    (field : CellField) (lockMasks : Nat) : StageRes :=
  match env.loadCellByField src idx field with
  | .err c => (some c, [])
  | .ok b =>
    if SCRIPT_SIZE < b.length then (some CKB_LENGTH_NOT_ENOUGH, [])
    else if ¬ scriptVerify b then (some ERROR_ENCODING, [])
    else
      (none,
        (if lockMasks &&& 16 ≠ 0 then codeHashSeg b else []) ++
        (if lockMasks &&& 32 ≠ 0 then argsSeg b else []) ++
        (if lockMasks &&& 64 ≠ 0 then hashTypeSeg b else []))

/-- The `MASK_CELL_CAPACITY` absorption: load the capacity field into an
8-byte zero-initialized `uint64_t` and absorb those 8 bytes. -/
def capacityStep (env : Env) (src : CellSrc) (idx : Nat) : StageRes :=
  match env.loadCellByField src idx .capacity with
  | .err c => (some c, [])
  | .ok b => (none, take8pad b)

/-- An 8-byte checked load of an input `since` field followed by an
absorption of the 8-byte buffer. -/
def sinceStep (env : Env) (src : CellSrc) (idx : Nat) : StageRes :=
  match env.loadInputByField src idx .since with
  | .err c => (some c, [])
  | .ok b =>
    if 8 < b.length then (some CKB_LENGTH_NOT_ENOUGH, [])
    else (none, take8pad b)

/-- The `LABEL_SIGHASH_ALL` branch: load the transaction hash, require the
reported length to be exactly 32, absorb it. -/
def sighashAllStep (env : Env) : StageRes :=
  match env.txHash with
  | .err c => (some c, [])
  | .ok h => if h.length ≠ 32 then (some ERROR_SYSCALL, []) else (none, h)

/-- The translation of the type-mask bits `0x02 / 0x04 / 0x08` to the
lock-position bits `0x10 / 0x20 / 0x40` performed before calling
`hash_script_fields` for the type script. -/
def typeBitsToLockBits (mask : Nat) : Nat :=
  (if mask &&& 2 ≠ 0 then 16 else 0) |||
  (if mask &&& 4 ≠ 0 then 32 else 0) |||
  (if mask &&& 8 ≠ 0 then 64 else 0)

/-- The `LABEL_OUTPUT` / `LABEL_INPUT_CELL` / `LABEL_INPUT_CELL_SINCE`
branch of the coverage interpreter.  `sinceFlag` is true for
`LABEL_INPUT_CELL_SINCE`. -/
def cellStep (env : Env) (src : CellSrc) (idx mask : Nat)
    (sinceFlag : Bool) : StageRes :=
  seqAbsorb
    (if mask = 255 then
      seqAbsorb (load_and_hash (env.loadCell src idx))
        (fun _ => load_and_hash (env.loadCellData src idx))
    else
      seqAbsorb
        (if mask &&& 1 ≠ 0 then capacityStep env src idx else (none, []))
        (fun _ => seqAbsorb
          (if mask &&& 14 ≠ 0 then
            hash_script_fields env src idx .typeScript (typeBitsToLockBits mask)
          else (none, []))
          (fun _ => seqAbsorb
            (if mask &&& 112 ≠ 0 then
              hash_script_fields env src idx .lockScript mask
            else (none, []))
            (fun _ =>
              if mask &&& 128 ≠ 0 then load_and_hash (env.loadCellData src idx)
              else (none, [])))))
    (fun _ => if sinceFlag then sinceStep env src idx else (none, []))

/-- Bytes absorbed by the `MASK_OUTPOINT_INDEX` branch of the source: the
code applies `MolReader_OutPoint_get_tx_hash` to the uninitialized local
`index_seg` (instead of `MolReader_OutPoint_get_index` to `outpoint_seg`),
so it absorbs 32 bytes of uninitialized stack memory, which the
deterministic zero-initializing CKB VM presents as zeros. -/
def uninitSegTxHashBytes : List Nat := List.replicate 32 0

/-- The outpoint load-verify-absorb part of the `LABEL_INPUT_OUTPOINT`
branch: load the input's outpoint through the checked loader with a 4 KiB
buffer, verify it as an `OutPoint`, then absorb the `tx_hash` segment if
bit `0x1` is set and, if bit `0x2` is set, the bytes the source bug reads
(see `uninitSegTxHashBytes`). -/
def outpointLoadStep (env : Env) (idx mask : Nat) : StageRes :=
  match env.loadInputByField .input idx .outPoint with
  | .err c => (some c, [])
  | .ok b =>
    if INPUT_SIZE < b.length then (some CKB_LENGTH_NOT_ENOUGH, [])
    else if ¬ outPointVerify b then (some ERROR_ENCODING, [])
    else
      (none,
        (if mask &&& 1 ≠ 0 then outPointTxHash b else []) ++
        (if mask &&& 2 ≠ 0 then uninitSegTxHashBytes else []))

/-- The `LABEL_INPUT_OUTPOINT` branch of the coverage interpreter. -/
def outpointStep (env : Env) (idx mask : Nat) : StageRes :=
  if mask = 255 then load_and_hash (env.loadInput idx)
  else
    seqAbsorb (if mask &&& 4 ≠ 0 then sinceStep env .input idx else (none, []))
      (fun _ => outpointLoadStep env idx mask)

/-- Dispatch on the label nibble of one coverage op (the `switch` in
`main`); the `END_OF_LIST` label is handled by the parse loop itself. -/
def labelStep (env : Env) (label idx mask : Nat) : StageRes :=
  if label = 0 then sighashAllStep env
  else if label = 1 then cellStep env .output idx mask false
  else if label = 2 then cellStep env .input idx mask false
  else if label = 3 then cellStep env .input idx mask true
  else if label = 4 then outpointStep env idx mask
  else (some ERROR_INVALID_LABEL, [])

/-- The label nibble of the coverage op at 0-based position `j` of the
lock segment starting at `lockOff` inside witness buffer `w`. -/
def opLabel (w : List Nat) (lockOff j : Nat) : Nat :=
  byteAt w (lockOff + j * 3) / 16

/-- The 12-bit index of the coverage op at position `j`:
`((byte0 & 0xF) << 8) | byte1`. -/
def opIdxCode (w : List Nat) (lockOff j : Nat) : Nat :=
  byteAt w (lockOff + j * 3) % 16 * 256 + byteAt w (lockOff + j * 3 + 1)

/-- The mask byte of the coverage op at position `j`. -/
def opMask (w : List Nat) (lockOff j : Nat) : Nat :=
  byteAt w (lockOff + j * 3 + 2)

/-- One step of the coverage parse loop of `main`, at op position `i`.
The loop guard is the one of the source, `i + 3 > lock_bytes_seg.size`,
with `i` counting ops while each op occupies 3 bytes.  Reads are performed
on the whole witness buffer at `lockOff + i * 3`, exactly like the pointer
arithmetic `&sighash_array[(i++) * 3]`, and can therefore fall outside the
lock segment.  The result is the error (if any), the number of ops
consumed including the terminator, and the absorbed bytes.  `fuel` bounds
the iterations: each iteration increases `i` by 1, and the guard fires as
soon as `i + 3 > lockSize`, so `fuel = lockSize` starting from `i = 0`
always reaches the guard before running out (at `fuel = 0` we then have
`i ≥ lockSize`, and the returned value is the guard-failure result). -/
def parseGo (env : Env) (w : List Nat) (lockOff lockSize : Nat) :
    Nat → Nat → Option Int × Nat × List Nat
  | 0, i => (some ERROR_INVALID_LABEL, i, [])
  | fuel + 1, i =>
    if i + 3 > lockSize then (some ERROR_INVALID_LABEL, i, [])
    else if opLabel w lockOff i = 15 then (none, i + 1, [])
    else
      match labelStep env (opLabel w lockOff i) (opIdxCode w lockOff i)
          (opMask w lockOff i) with
      | (some c, s) => (some c, i + 1, s)
      | (none, s) =>
        let r := parseGo env w lockOff lockSize fuel (i + 1)
        (r.1, r.2.1, s ++ r.2.2)

/-- The coverage parse loop of `main`, started at op position 0. -/
def parseCoverage (env : Env) (w : List Nat) (lockOff lockSize : Nat) :
    Option Int × Nat × List Nat :=
  parseGo env w lockOff lockSize lockSize 0

/-- A witness loop of the finalization phase (same-group witnesses from
index 1, then transaction witnesses from index `inputs_len`): for each
witness until `CKB_INDEX_OUT_OF_BOUND`, check the 32 KiB bound and absorb
the 8-byte length followed by the witness bytes.  Any other load failure
is `ERROR_SYSCALL`. -/
def witnessTail : List HostRead → StageRes
  | [] => (none, [])
  | .err c :: _ =>
    if c = CKB_INDEX_OUT_OF_BOUND then (none, []) else (some ERROR_SYSCALL, [])
  | .ok b :: rest =>
    if WITNESS_SIZE < b.length then (some ERROR_WITNESS_SIZE, [])
    else seqAbsorb (none, u64leBytes b.length ++ b) (fun _ => witnessTail rest)

/-- The `memset` zeroing of the signature region: bytes
`[off, off + n)` of the buffer are replaced by zeros. -/
def zeroRange (w : List Nat) (off n : Nat) : List Nat :=
  w.take off ++ List.replicate (min n (w.length - off)) 0 ++ w.drop (off + n)

/-- Replacement of bytes `[off, off + s.length)` of a buffer by `s`; used
to state that the absorbed first witness does not depend on the signature
bytes. -/
def overwriteRange (w : List Nat) (off : Nat) (s : List Nat) : List Nat :=
  w.take off ++ s.take (w.length - off) ++ w.drop (off + s.length)

/-- The signature-verification phase of `main`, entered after the digest
stream `S` is complete: initialize the secp256k1 context, parse the
compact recoverable signature (recovery id from byte 64), recover the
public key over the 32-byte message, serialize it compressed, hash it,
load the script, and compare the script args with the first 20 bytes of
the hash.  Returns the exit code of `main` paired with the digest
stream. -/
def verifyStage (env : Env) (message sigBytes S : List Nat) : Int × List Nat :=
  if env.secpDataRet ≠ 0 then (env.secpDataRet, S)
  else if env.secpInitRet ≠ 0 then (env.secpInitRet, S)
  else if ¬ env.secpParse (sigBytes.take 64) (byteAt sigBytes 64) then
    (ERROR_SECP_PARSE_SIGNATURE, S)
  else
    match env.secpRecover (sigBytes.take 64) (byteAt sigBytes 64) message with
    | none => (ERROR_SECP_RECOVER_PUBKEY, S)
    | some pk =>
      match env.secpSerialize pk with
      | none => (ERROR_SECP_SERIALIZE_PUBKEY, S)
      | some pk33 =>
        match env.script with
        | .err _ => (ERROR_SYSCALL, S)
        | .ok sc =>
          if SCRIPT_SIZE < sc.length then (ERROR_SCRIPT_TOO_LONG, S)
          else if ¬ scriptVerify sc then (ERROR_ENCODING, S)
          else if (argsRawBytes sc).length ≠ 20 then (ERROR_ARGUMENTS_LEN, S)
          else if argsRawBytes sc ≠ (env.blake2b pk33).take 20 then
            (ERROR_PUBKEY_BLAKE160_HASH, S)
          else (0, S)

/-- The witness-finalization and signature phases of `main`, entered after
the size equation held with `n` consumed ops: copy the signature bytes out
of the lock segment, zero them in the witness buffer, absorb the 8-byte
length of the modified first witness followed by its bytes, run the two
remaining witness loops, finalize the digest and verify the signature.
`s1` and `s2` are the bytes absorbed by the group-input prefix and the
coverage ops. -/
def finalizePhase (env : Env) (w : List Nat) (lockOff n : Nat)
    (s1 s2 : List Nat) : Int × List Nat :=
  let sigBytes := slice w (lockOff + n * 3) SIGNATURE_SIZE
  let wz := zeroRange w (lockOff + n * 3) SIGNATURE_SIZE
  let s3 := u64leBytes w.length ++ wz
  match witnessTail (env.groupWitnesses.drop 1) with
  | (some c, s4) => (c, s1 ++ s2 ++ s3 ++ s4)
  | (none, s4) =>
    match witnessTail (env.inputWitnesses.drop env.inputsLen) with
    | (some c, s5) => (c, s1 ++ s2 ++ s3 ++ s4 ++ s5)
    | (none, s5) =>
      let S := s1 ++ s2 ++ s3 ++ s4 ++ s5
      verifyStage env (env.blake2b S) sigBytes S

/-- The whole of `main` from the source, as a function from the host
environment to the exit code paired with the bytes absorbed into the
digest session up to the point where `main` returned. -/
def mainRun (env : Env) : Int × List Nat :=
  match env.groupWitnesses.getD 0 (.err CKB_INDEX_OUT_OF_BOUND) with
  | .err _ => (ERROR_SYSCALL, [])
  | .ok w =>
    if WITNESS_SIZE < w.length then (ERROR_WITNESS_SIZE, [])
    else
      match extract_witness_lock w with
      | .error _ => (ERROR_ENCODING, [])
      | .ok (lockOff, lockSize) =>
        if lockSize ≤ SIGNATURE_SIZE then (ERROR_ARGUMENTS_LEN, [])
        else
          match hashGroupInputs env.groupInputs with
          | (some c, s1) => (c, s1)
          | (none, s1) =>
            match parseCoverage env w lockOff lockSize with
            | (some c, _, s2) => (c, s1 ++ s2)
            | (none, n, s2) =>
              if lockSize ≠ n * 3 + SIGNATURE_SIZE then
                (ERROR_ARGUMENTS_LEN, s1 ++ s2)
              else finalizePhase env w lockOff n s1 s2

/-- Host environments whose per-index loads never report the impossible
error code 0 (`CKB_SUCCESS` with no data): the C loaders return
`CKB_SUCCESS` exactly when they succeed, so a failing read carries a
nonzero code. -/
def EnvWF (env : Env) : Prop :=
  (∀ r ∈ env.groupInputs, r ≠ .err 0) ∧
  env.txHash ≠ .err 0 ∧
  (∀ i, env.loadInput i ≠ .err 0) ∧
  (∀ s i, env.loadCell s i ≠ .err 0) ∧
  (∀ s i, env.loadCellData s i ≠ .err 0) ∧
  (∀ s i f, env.loadCellByField s i f ≠ .err 0) ∧
  (∀ s i f, env.loadInputByField s i f ≠ .err 0)

/-- Absence of an `END_OF_LIST` op in the coverage region (the first
`lockSize - 65` bytes of the lock segment): no 3-byte-aligned op position
fully contained in the region carries the label nibble `0xF`. -/
def noEndInRegion (w : List Nat) (lockOff lockSize : Nat) : Bool :=
  (List.range ((lockSize - SIGNATURE_SIZE) / 3)).all
    (fun j => opLabel w lockOff j != 15)

/-- A canonical molecule `WitnessArgs` whose `lock` field holds the given
bytes and whose `input_type` and `output_type` fields are absent.  The raw
lock bytes start at offset 20. -/
def mkWitnessArgs (lock : List Nat) : List Nat :=
  u32leBytes (20 + lock.length) ++ u32leBytes 16 ++
    u32leBytes (20 + lock.length) ++ u32leBytes (20 + lock.length) ++
    u32leBytes lock.length ++ lock

/-- A canonical molecule `Script` with the given 32-byte code hash,
one-byte hash type and args content. -/
def mkScript (codeHash : List Nat) (hashType : Nat) (args : List Nat) :
    List Nat :=
  u32leBytes (53 + args.length) ++ u32leBytes 16 ++ u32leBytes 48 ++
    u32leBytes 49 ++ codeHash ++ [hashType] ++ u32leBytes args.length ++ args

/-- A host environment used for concrete evaluations: no witnesses, no
inputs, a constant transaction hash, and failing secp primitives. -/
def envBase : Env where
  groupWitnesses := []
  inputWitnesses := []
  groupInputs := []
  loadInput := fun _ => .err 2
  loadCell := fun _ _ => .err 2
  loadCellData := fun _ _ => .err 2
  loadCellByField := fun _ _ _ => .err 2
  loadInputByField := fun _ _ _ => .err 2
  txHash := .ok (List.replicate 32 7)
  script := .err 2
  inputsLen := 0
  secpDataRet := 0
  secpInitRet := 0
  secpParse := fun _ _ => false
  secpRecover := fun _ _ _ => none
  secpSerialize := fun _ => none
  blake2b := fun _ => List.replicate 32 0

/-- Witness buffer for the out-of-bounds-parse evaluation: 100 zero bytes;
with the lock segment at `[20, 86)` its 66 lock bytes are all zero and the
bytes following the segment are zero as well. -/
def wOobA : List Nat := List.replicate 100 0

/-- Same as `wOobA` except that the byte at offset 86 — the first byte
PAST the end of the 66-byte lock segment — is `0xF0`, an `END_OF_LIST`
nibble. -/
def wOobB : List Nat := List.replicate 86 0 ++ [240] ++ List.replicate 13 0

/-- A 36-byte serialized `OutPoint` with pairwise distinct bytes; its
`index` field is `[32, 33, 34, 35]`. -/
def outPointC1 : List Nat := List.range 36

/-- Environment whose input loads return `outPointC1`, used to evaluate
the `INPUT_OUTPOINT` branch. -/
def envC1 : Env :=
  { envBase with
    loadInputByField := fun _ _ f =>
      if f = .outPoint then .ok outPointC1 else .err 2 }

/-- Lock bytes for the missing-terminator scenario: a 68-byte lock segment
whose 3-byte coverage region is `00 00 00` (a single `SIGHASH_ALL` op, no
terminator) and whose 65 signature bytes begin with `F0 00 00`. -/
def lockNoEnd : List Nat := [0, 0, 0] ++ [240, 0, 0] ++ List.replicate 62 0

/-- The witness carrying `lockNoEnd`. -/
def wNoEnd : List Nat := mkWitnessArgs lockNoEnd

/-- Environment for the missing-terminator scenario. -/
def envNoEnd : Env := { envBase with groupWitnesses := [.ok wNoEnd] }

/-- Lock bytes consisting of just the `END_OF_LIST` terminator and 65 zero
signature bytes. -/
def lockMinimal : List Nat := [240, 0, 0] ++ List.replicate 65 0

/-- The witness carrying `lockMinimal`. -/
def wMinimal : List Nat := mkWitnessArgs lockMinimal

/-- Environment with two group inputs and the minimal coverage array; the
verifier runs all the way to the signature parse, which fails. -/
def envMinimal : Env :=
  { envBase with
    groupWitnesses := [.ok wMinimal]
    groupInputs := [.ok [1, 2, 3], .ok [4, 5]] }

/-- A short witness whose lock field has only 10 bytes, below the 65-byte
signature minimum. -/
def wShort : List Nat := mkWitnessArgs (List.replicate 10 0)

/-- Environment carrying `wShort`. -/
def envShort : Env := { envBase with groupWitnesses := [.ok wShort] }

/-- A concrete type script for the cell-op evaluation. -/
def scriptT : List Nat := mkScript (List.replicate 32 1) 0 [7, 7]

/-- A concrete lock script for the cell-op evaluation. -/
def scriptL : List Nat := mkScript (List.replicate 32 2) 1 [9]

/-- Environment whose cell loads all succeed, used to evaluate a
cell-label coverage op. -/
def envC8 : Env :=
  { envBase with
    loadCellByField := fun _ _ f =>
      match f with
      | .capacity => .ok [100, 0, 0, 0, 0, 0, 0, 0]
      | .typeScript => .ok scriptT
      | .lockScript => .ok scriptL
    loadCellData := fun _ _ => .ok [1, 2, 3]
    loadInputByField := fun _ _ f =>
      if f = .since then .ok [8, 7, 6, 5, 4, 3, 2, 1] else .err 2 }

/-- Sequencing a successful stage prepends its absorbed bytes. -/
theorem seqAbsorb_ok (s : List Nat) (k : Unit → StageRes) :
    seqAbsorb (none, s) k = ((k ()).1, s ++ (k ()).2) := rfl

/-- Sequencing a failed stage short-circuits. -/
theorem seqAbsorb_err (c : Int) (s : List Nat) (k : Unit → StageRes) :
    seqAbsorb (some c, s) k = (some c, s) := rfl

/-- An error code surfacing from a stage sequence comes from one of the
two stages. -/
theorem seqAbsorb_fst_some {a : StageRes} {k : Unit → StageRes} {c : Int}
    (h : (seqAbsorb a k).1 = some c) :
    a.1 = some c ∨ (k ()).1 = some c := by
  rcases a with ⟨e, s⟩
  cases e with
  | none => right; simpa [seqAbsorb] using h
  | some c0 => left; simpa [seqAbsorb] using h

/-- The batched window loop absorbs exactly the remainder of the object
when given enough fuel. -/
theorem batchedGo_drop (o : List Nat) :
    ∀ fuel offset, o.length - offset ≤ fuel →
      batchedGo o fuel offset = o.drop offset := by
  intro fuel
  induction fuel with
  | zero =>
    intro offset h
    have : o.length ≤ offset := by omega
    simp [batchedGo, List.drop_eq_nil_of_le this]
  | succ fuel ih =>
    intro offset h
    by_cases hlt : offset < o.length
    · have hcur : 1 ≤ min (o.length - offset) ONE_BATCH_SIZE := by
        simp [ONE_BATCH_SIZE]; omega
      have hrec :
          o.length - (offset + min (o.length - offset) ONE_BATCH_SIZE) ≤ fuel := by
        omega
      simp only [batchedGo, if_pos hlt]
      rw [ih _ hrec]
      have hdd : o.drop (offset + min (o.length - offset) ONE_BATCH_SIZE) =
          (o.drop offset).drop (min (o.length - offset) ONE_BATCH_SIZE) := by
        rw [List.drop_drop, Nat.add_comm]
      rw [hdd, List.take_append_drop]
    · simp [batchedGo, hlt, List.drop_eq_nil_of_le (by omega : o.length ≤ offset)]

/-- `load_and_hash` absorbs exactly the bytes of a successfully loaded
object. -/
theorem load_and_hash_ok (o : List Nat) : load_and_hash (.ok o) = (none, o) := by
  simp only [load_and_hash]
  rw [batchedGo_drop o o.length (min o.length ONE_BATCH_SIZE) (by omega)]
  rw [List.take_append_drop]

/-- An error surfacing from `load_and_hash` is the loader's own code. -/
theorem load_and_hash_fst_some {r : HostRead} {c : Int}
    (h : (load_and_hash r).1 = some c) : r = .err c := by
  cases r with
  | err c0 => simp [load_and_hash] at h; simp [h]
  | ok o => rw [load_and_hash_ok] at h; simp at h

/-- The group-input prefix loop absorbs the concatenation of the loaded
group inputs preceding the first failing index. -/
theorem hashGroupInputs_snd (l : List HostRead) :
    (hashGroupInputs l).2 = inputsBytesConcat l := by
  induction l with
  | nil => simp [hashGroupInputs, inputsBytesConcat]
  | cons r rest ih =>
    cases r with
    | err c =>
      by_cases h : c = CKB_INDEX_OUT_OF_BOUND <;>
        simp [hashGroupInputs, inputsBytesConcat, h]
    | ok o =>
      simp [hashGroupInputs, inputsBytesConcat, load_and_hash_ok, seqAbsorb_ok, ih]

/-- An error code surfacing from the group-input prefix loop is the code
of one of the list's entries. -/
theorem hashGroupInputs_fst_some :
    ∀ l : List HostRead, ∀ c : Int, (hashGroupInputs l).1 = some c →
      HostRead.err c ∈ l := by
  intro l
  induction l with
  | nil => intro c h; simp [hashGroupInputs] at h
  | cons r rest ih =>
    intro c h
    cases r with
    | err c0 =>
      by_cases he : c0 = CKB_INDEX_OUT_OF_BOUND
      · simp [hashGroupInputs, he] at h
      · simp only [hashGroupInputs, if_neg he] at h
        simp at h
        simp [h]
    | ok o =>
      simp only [hashGroupInputs, load_and_hash_ok, seqAbsorb_ok] at h
      exact List.mem_cons_of_mem _ (ih c h)

/-- The verification stage reports the digest stream it was given. -/
theorem verifyStage_snd (env : Env) (message sigBytes S : List Nat) :
    (verifyStage env message sigBytes S).2 = S := by
  unfold verifyStage
  repeat' split <;> try rfl

/-- An error escaping the `SIGHASH_ALL` branch is a transaction-hash load
failure or `ERROR_SYSCALL`. -/
theorem sighashAllStep_fst_some {env : Env} {c : Int}
    (h : (sighashAllStep env).1 = some c) :
    env.txHash = .err c ∨ c = ERROR_SYSCALL := by
  rcases he : env.txHash with b | c0 <;> unfold sighashAllStep at h <;>
    rw [he] at h
  · right
    by_cases hb : b.length = 32
    · simp [hb] at h
    · simp [hb] at h
      simp [ERROR_SYSCALL] at h ⊢
      omega
  · left
    simp at h
    rw [← h]

/-- An error escaping the capacity absorption is the loader's code. -/
theorem capacityStep_fst_some {env : Env} {src : CellSrc} {idx : Nat} {c : Int}
    (h : (capacityStep env src idx).1 = some c) :
    env.loadCellByField src idx .capacity = .err c := by
  rcases he : env.loadCellByField src idx .capacity with b | c0 <;>
    unfold capacityStep at h <;> rw [he] at h
  · simp at h
  · simp at h
    rw [← h]

/-- An error escaping a `since` absorption is the loader's code or the
checked-load size failure. -/
theorem sinceStep_fst_some {env : Env} {src : CellSrc} {idx : Nat} {c : Int}
    (h : (sinceStep env src idx).1 = some c) :
    env.loadInputByField src idx .since = .err c ∨ c = CKB_LENGTH_NOT_ENOUGH := by
  rcases he : env.loadInputByField src idx .since with b | c0 <;>
    unfold sinceStep at h <;> rw [he] at h
  · right
    by_cases hb : 8 < b.length
    · simp [hb] at h
      simp [CKB_LENGTH_NOT_ENOUGH] at h ⊢
      omega
    · simp [hb] at h
  · left
    simp at h
    rw [← h]

/-- An error escaping `hash_script_fields` is the loader's code, the
checked-load size failure, or `ERROR_ENCODING`. -/
theorem hash_script_fields_fst_some {env : Env} {src : CellSrc} {idx : Nat}
    {f : CellField} {m : Nat} {c : Int}
    (h : (hash_script_fields env src idx f m).1 = some c) :
    env.loadCellByField src idx f = .err c ∨ c = CKB_LENGTH_NOT_ENOUGH ∨
      c = ERROR_ENCODING := by
  rcases he : env.loadCellByField src idx f with b | c0 <;>
    unfold hash_script_fields at h <;> rw [he] at h
  · right
    by_cases hb : SCRIPT_SIZE < b.length
    · left
      simp [hb] at h
      simp [CKB_LENGTH_NOT_ENOUGH] at h ⊢
      omega
    · by_cases hv : scriptVerify b
      · simp [hb, hv] at h
      · right
        simp [hb, hv] at h
        simp [ERROR_ENCODING] at h ⊢
        omega
  · left
    simp at h
    rw [← h]

/-- An error escaping the outpoint load-verify-absorb part is the loader's
code, the checked-load size failure, or `ERROR_ENCODING`. -/
theorem outpointLoadStep_fst_some {env : Env} {idx mask : Nat} {c : Int}
    (h : (outpointLoadStep env idx mask).1 = some c) :
    env.loadInputByField .input idx .outPoint = .err c ∨
      c = CKB_LENGTH_NOT_ENOUGH ∨ c = ERROR_ENCODING := by
  rcases he : env.loadInputByField .input idx .outPoint with b | c0 <;>
    unfold outpointLoadStep at h <;> rw [he] at h
  · right
    by_cases hb : INPUT_SIZE < b.length
    · left
      simp [hb] at h
      simp [CKB_LENGTH_NOT_ENOUGH] at h ⊢
      omega
    · by_cases hv : outPointVerify b
      · simp [hb, hv] at h
      · right
        simp [hb, hv] at h
        simp [ERROR_ENCODING] at h ⊢
        omega
  · left
    simp at h
    rw [← h]

/-- Any error code escaping a cell-label coverage op is nonzero when the
environment never reports error code 0. -/
theorem cellStep_fst_ne_zero {env : Env} (hwf : EnvWF env) {src : CellSrc}
    {idx mask : Nat} {sinceFlag : Bool} {c : Int}
    (h : (cellStep env src idx mask sinceFlag).1 = some c) : c ≠ 0 := by
  obtain ⟨-, -, -, hcell, hdata, hfield, hinf⟩ := hwf
  have hfield0 : ∀ s i f, env.loadCellByField s i f = .err c → c ≠ 0 := by
    intro s i f he hc
    exact hfield s i f (hc ▸ he)
  unfold cellStep at h
  rcases seqAbsorb_fst_some h with h | h
  · split at h
    · rcases seqAbsorb_fst_some h with h | h
      · have := load_and_hash_fst_some h
        intro hc
        exact hcell src idx (hc ▸ this)
      · have := load_and_hash_fst_some h
        intro hc
        exact hdata src idx (hc ▸ this)
    · rcases seqAbsorb_fst_some h with h | h
      · split at h
        · exact hfield0 _ _ _ (capacityStep_fst_some h)
        · simp at h
      · rcases seqAbsorb_fst_some h with h | h
        · split at h
          · rcases hash_script_fields_fst_some h with he | he | he
            · exact hfield0 _ _ _ he
            · simp [he, CKB_LENGTH_NOT_ENOUGH]
            · simp [he, ERROR_ENCODING]
          · simp at h
        · rcases seqAbsorb_fst_some h with h | h
          · split at h
            · rcases hash_script_fields_fst_some h with he | he | he
              · exact hfield0 _ _ _ he
              · simp [he, CKB_LENGTH_NOT_ENOUGH]
              · simp [he, ERROR_ENCODING]
            · simp at h
          · split at h
            · have := load_and_hash_fst_some h
              intro hc
              exact hdata src idx (hc ▸ this)
            · simp at h
  · split at h
    · rcases sinceStep_fst_some h with he | he
      · intro hc
        exact hinf src idx .since (hc ▸ he)
      · simp [he, CKB_LENGTH_NOT_ENOUGH]
    · simp at h

/-- Any error code escaping an `INPUT_OUTPOINT` coverage op is nonzero
when the environment never reports error code 0. -/
theorem outpointStep_fst_ne_zero {env : Env} (hwf : EnvWF env)
    {idx mask : Nat} {c : Int}
    (h : (outpointStep env idx mask).1 = some c) : c ≠ 0 := by
  obtain ⟨-, -, hinp, -, -, -, hinf⟩ := hwf
  unfold outpointStep at h
  split at h
  · have := load_and_hash_fst_some h
    intro hc
    exact hinp idx (hc ▸ this)
  · rcases seqAbsorb_fst_some h with h | h
    · split at h
      · rcases sinceStep_fst_some h with he | he
        · intro hc
          exact hinf .input idx .since (hc ▸ he)
        · simp [he, CKB_LENGTH_NOT_ENOUGH]
      · simp at h
    · rcases outpointLoadStep_fst_some h with he | he | he
      · intro hc
        exact hinf .input idx .outPoint (hc ▸ he)
      · simp [he, CKB_LENGTH_NOT_ENOUGH]
      · simp [he, ERROR_ENCODING]

/-- Any error code escaping a coverage-op dispatch is nonzero when the
environment never reports error code 0. -/
theorem labelStep_fst_ne_zero {env : Env} (hwf : EnvWF env)
    {label idx mask : Nat} {c : Int}
    (h : (labelStep env label idx mask).1 = some c) : c ≠ 0 := by
  unfold labelStep at h
  split at h
  · rcases sighashAllStep_fst_some h with he | he
    · intro hc
      exact hwf.2.1 (hc ▸ he)
    · simp [he, ERROR_SYSCALL]
  · split at h
    · exact cellStep_fst_ne_zero hwf h
    · split at h
      · exact cellStep_fst_ne_zero hwf h
      · split at h
        · exact cellStep_fst_ne_zero hwf h
        · split at h
          · exact outpointStep_fst_ne_zero hwf h
          · simp at h
            simp [← h, ERROR_INVALID_LABEL]

/-- Any error code escaping the coverage parse loop is nonzero when the
environment never reports error code 0. -/
theorem parseGo_fst_ne_zero {env : Env} (hwf : EnvWF env)
    (w : List Nat) (lockOff lockSize : Nat) :
    ∀ fuel i c, (parseGo env w lockOff lockSize fuel i).1 = some c → c ≠ 0 := by
  intro fuel
  induction fuel with
  | zero =>
    intro i c h
    simp [parseGo] at h
    simp [← h, ERROR_INVALID_LABEL]
  | succ fuel ih =>
    intro i c h
    unfold parseGo at h
    split at h
    · simp at h
      simp [← h, ERROR_INVALID_LABEL]
    · split at h
      · simp at h
      · split at h
        · rename_i s heq
          simp at h
          exact labelStep_fst_ne_zero hwf (by rw [heq, h])
        · simp at h
          exact ih (i + 1) c h

/-- Any error code escaping the group-input prefix loop is nonzero when
the environment never reports error code 0. -/
theorem hashGroupInputs_fst_ne_zero {env : Env} (hwf : EnvWF env) {c : Int}
    (h : (hashGroupInputs env.groupInputs).1 = some c) : c ≠ 0 := by
  intro hc
  exact hwf.1 _ (hashGroupInputs_fst_some _ _ h) (by rw [hc])

/-- A successful parse consumed at least one op past the start position,
and the last consumed op carries the `END_OF_LIST` nibble. -/
theorem parseGo_none_last (env : Env) (w : List Nat) (lockOff lockSize : Nat) :
    ∀ fuel i n s, parseGo env w lockOff lockSize fuel i = (none, n, s) →
      i < n ∧ opLabel w lockOff (n - 1) = 15 := by
  intro fuel
  induction fuel with
  | zero =>
    intro i n s h
    simp [parseGo] at h
  | succ fuel ih =>
    intro i n s h
    unfold parseGo at h
    split at h
    · simp at h
    · split at h
      · simp at h
        obtain ⟨hn, -⟩ := h
        constructor
        · omega
        · rw [← hn]
          simpa using (by assumption : opLabel w lockOff i = 15)
      · split at h
        · simp at h
        · rename_i s0 heq
          rcases hp : parseGo env w lockOff lockSize fuel (i + 1) with ⟨e, m, t⟩
          rw [hp] at h
          simp at h
          obtain ⟨he, hm, -⟩ := h
          have := ih (i + 1) n t (by rw [hp, he, hm])
          exact ⟨by omega, this.2⟩

/-- The lock segment returned by `extract_witness_lock` starts at offset
20 and lies entirely inside the witness buffer. -/
theorem extract_witness_lock_bounds {w : List Nat} {lo ls : Nat}
    (h : extract_witness_lock w = .ok (lo, ls)) :
    lo = 20 ∧ 20 + ls ≤ w.length := by
  unfold extract_witness_lock at h
  by_cases hv : witnessArgsVerify w
  · rw [if_pos hv] at h
    by_cases hz : u32At w 8 - 16 = 0
    · simp [hz] at h
    · rw [if_neg hz] at h
      simp at h
      obtain ⟨hlo, hls⟩ := h
      obtain ⟨-, -, -, h16, ho12, ho2n, hb0, -, -⟩ := hv
      rcases hb0 with hzero | ⟨hb4, hbc⟩
      · omega
      · omega
  · simp [hv] at h

/-- Unfolding of `mainRun` when all phases before finalization succeed. -/
theorem mainRun_final {env : Env} {w : List Nat} {lo ls n : Nat}
    {s1 s2 : List Nat}
    (h1 : env.groupWitnesses.getD 0 (.err CKB_INDEX_OUT_OF_BOUND) = .ok w)
    (h2 : ¬ WITNESS_SIZE < w.length)
    (h3 : extract_witness_lock w = .ok (lo, ls))
    (h4 : ¬ ls ≤ SIGNATURE_SIZE)
    (hgi : hashGroupInputs env.groupInputs = (none, s1))
    (hp : parseCoverage env w lo ls = (none, n, s2))
    (heq : ls = n * 3 + SIGNATURE_SIZE) :
    mainRun env = finalizePhase env w lo n s1 s2 := by
  unfold mainRun
  rw [h1]
  simp only [if_neg h2]
  rw [h3]
  simp only [if_neg h4, hgi, hp]
  simp [heq]

/-- Unfolding of `mainRun` when the group-input prefix loop fails. -/
theorem mainRun_gi_err {env : Env} {w : List Nat} {lo ls : Nat} {c : Int}
    {s1 : List Nat}
    (h1 : env.groupWitnesses.getD 0 (.err CKB_INDEX_OUT_OF_BOUND) = .ok w)
    (h2 : ¬ WITNESS_SIZE < w.length)
    (h3 : extract_witness_lock w = .ok (lo, ls))
    (h4 : ¬ ls ≤ SIGNATURE_SIZE)
    (hgi : hashGroupInputs env.groupInputs = (some c, s1)) :
    mainRun env = (c, s1) := by
  unfold mainRun
  rw [h1]
  simp only [if_neg h2]
  rw [h3]
  simp only [if_neg h4, hgi]

/-- Unfolding of `mainRun` when the coverage parse fails. -/
theorem mainRun_parse_err {env : Env} {w : List Nat} {lo ls n : Nat} {c : Int}
    {s1 s2 : List Nat}
    (h1 : env.groupWitnesses.getD 0 (.err CKB_INDEX_OUT_OF_BOUND) = .ok w)
    (h2 : ¬ WITNESS_SIZE < w.length)
    (h3 : extract_witness_lock w = .ok (lo, ls))
    (h4 : ¬ ls ≤ SIGNATURE_SIZE)
    (hgi : hashGroupInputs env.groupInputs = (none, s1))
    (hp : parseCoverage env w lo ls = (some c, n, s2)) :
    mainRun env = (c, s1 ++ s2) := by
  unfold mainRun
  rw [h1]
  simp only [if_neg h2]
  rw [h3]
  simp only [if_neg h4, hgi, hp]

/-- Unfolding of `mainRun` when the size equation fails after the parse. -/
theorem mainRun_size_err {env : Env} {w : List Nat} {lo ls n : Nat}
    {s1 s2 : List Nat}
    (h1 : env.groupWitnesses.getD 0 (.err CKB_INDEX_OUT_OF_BOUND) = .ok w)
    (h2 : ¬ WITNESS_SIZE < w.length)
    (h3 : extract_witness_lock w = .ok (lo, ls))
    (h4 : ¬ ls ≤ SIGNATURE_SIZE)
    (hgi : hashGroupInputs env.groupInputs = (none, s1))
    (hp : parseCoverage env w lo ls = (none, n, s2))
    (hne : ls ≠ n * 3 + SIGNATURE_SIZE) :
    mainRun env = (ERROR_ARGUMENTS_LEN, s1 ++ s2) := by
  unfold mainRun
  rw [h1]
  simp only [if_neg h2]
  rw [h3]
  simp only [if_neg h4, hgi, hp]
  simp [hne]

/-- Unfolding of `mainRun` when the lock segment is too short. -/
theorem mainRun_short {env : Env} {w : List Nat} {lo ls : Nat}
    (h1 : env.groupWitnesses.getD 0 (.err CKB_INDEX_OUT_OF_BOUND) = .ok w)
    (h2 : ¬ WITNESS_SIZE < w.length)
    (h3 : extract_witness_lock w = .ok (lo, ls))
    (h4 : ls ≤ SIGNATURE_SIZE) :
    mainRun env = (ERROR_ARGUMENTS_LEN, []) := by
  unfold mainRun
  rw [h1]
  simp only [if_neg h2]
  rw [h3]
  simp only [if_pos h4]

/-- If `main` exits with code 0 then the coverage parse succeeded and the
size equation held for the number of ops it consumed. -/
theorem mainRun_zero_shape {env : Env} {w : List Nat} {lo ls : Nat}
    (hwf : EnvWF env)
    (h1 : env.groupWitnesses.getD 0 (.err CKB_INDEX_OUT_OF_BOUND) = .ok w)
    (h2 : ¬ WITNESS_SIZE < w.length)
    (h3 : extract_witness_lock w = .ok (lo, ls))
    (hz : (mainRun env).1 = 0) :
    (parseCoverage env w lo ls).1 = none ∧
      ls = (parseCoverage env w lo ls).2.1 * 3 + SIGNATURE_SIZE := by
  by_cases h4 : ls ≤ SIGNATURE_SIZE
  · rw [mainRun_short h1 h2 h3 h4] at hz
    simp [ERROR_ARGUMENTS_LEN] at hz
  · rcases hgi : hashGroupInputs env.groupInputs with ⟨e1, s1⟩
    cases e1 with
    | some c =>
      rw [mainRun_gi_err h1 h2 h3 h4 hgi] at hz
      exact absurd hz (hashGroupInputs_fst_ne_zero hwf (by rw [hgi]))
    | none =>
      rcases hp : parseCoverage env w lo ls with ⟨e2, n, s2⟩
      cases e2 with
      | some c =>
        rw [mainRun_parse_err h1 h2 h3 h4 hgi hp] at hz
        exact absurd hz (parseGo_fst_ne_zero hwf w lo ls ls 0 c (by
          have : parseCoverage env w lo ls = (some c, n, s2) := hp
          unfold parseCoverage at this
          rw [this]))
      | none =>
        by_cases hne : ls = n * 3 + SIGNATURE_SIZE
        · simp [hp, hne]
        · rw [mainRun_size_err h1 h2 h3 h4 hgi hp hne] at hz
          simp [ERROR_ARGUMENTS_LEN] at hz

/-- The finalization phase only ever appends to the stream absorbed before
it. -/
theorem finalizePhase_snd_ex (env : Env) (w : List Nat) (lo n : Nat)
    (s1 s2 : List Nat) :
    ∃ t, (finalizePhase env w lo n s1 s2).2 = s1 ++ t := by
  unfold finalizePhase
  rcases h4 : witnessTail (env.groupWitnesses.drop 1) with ⟨e4, s4⟩
  cases e4 with
  | some c =>
    refine ⟨s2 ++ (u64leBytes w.length ++
      zeroRange w (lo + n * 3) SIGNATURE_SIZE) ++ s4, ?_⟩
    simp [h4]
  | none =>
    rcases h5 : witnessTail (env.inputWitnesses.drop env.inputsLen) with ⟨e5, s5⟩
    cases e5 with
    | some c =>
      refine ⟨s2 ++ (u64leBytes w.length ++
        zeroRange w (lo + n * 3) SIGNATURE_SIZE) ++ s4 ++ s5, ?_⟩
      simp [h4, h5]
    | none =>
      refine ⟨s2 ++ (u64leBytes w.length ++
        zeroRange w (lo + n * 3) SIGNATURE_SIZE) ++ s4 ++ s5, ?_⟩
      simp [h4, h5, verifyStage_snd]

/-- The environments used by the concrete witnesses all share the loader
fields of `envBase`, which never report error code 0. -/
theorem envBase_like_wf (gw iw gi) (hgi : ∀ r ∈ gi, r ≠ HostRead.err 0) :
    EnvWF { envBase with groupWitnesses := gw, inputWitnesses := iw,
                         groupInputs := gi } := by
  refine ⟨hgi, ?_, ?_, ?_, ?_, ?_, ?_⟩
  · simp [envBase]
  · intro i
    simp [envBase]
  · intro s i
    simp [envBase]
  · intro s i
    simp [envBase]
  · intro s i f
    simp [envBase]
  · intro s i f
    simp [envBase]

/-- Claim C3: for every transaction in which `main` reaches the coverage
phase (first witness loaded, lock extracted, minimum size met), the digest
stream begins with the concatenation of the serialized group inputs at
indices 0, 1, 2, … up to the first host failure (`INDEX_OUT_OF_BOUND`
terminates the loop) — before anything a coverage op absorbs, for every
coverage array including the terminator-only one, so the signer cannot opt
out of committing to the group's inputs. -/
theorem claim_C3 (env : Env) (w : List Nat) (lo ls : Nat)
    (h1 : env.groupWitnesses.getD 0 (.err CKB_INDEX_OUT_OF_BOUND) = .ok w)
    (h2 : ¬ WITNESS_SIZE < w.length)
    (h3 : extract_witness_lock w = .ok (lo, ls))
    (h4 : ¬ ls ≤ SIGNATURE_SIZE) :
    ∃ t, (mainRun env).2 = inputsBytesConcat env.groupInputs ++ t := by
  rcases hgi : hashGroupInputs env.groupInputs with ⟨e1, s1⟩
  have hs1 : s1 = inputsBytesConcat env.groupInputs := by
    rw [← hashGroupInputs_snd, hgi]
  cases e1 with
  | some c =>
    refine ⟨[], ?_⟩
    rw [mainRun_gi_err h1 h2 h3 h4 hgi]
    simp [hs1]
  | none =>
    rcases hp : parseCoverage env w lo ls with ⟨e2, n, s2⟩
    cases e2 with
    | some c =>
      refine ⟨s2, ?_⟩
      rw [mainRun_parse_err h1 h2 h3 h4 hgi hp]
      simp [hs1]
    | none =>
      by_cases heq : ls = n * 3 + SIGNATURE_SIZE
      · rw [mainRun_final h1 h2 h3 h4 hgi hp heq]
        obtain ⟨t, ht⟩ := finalizePhase_snd_ex env w lo n s1 s2
        exact ⟨t, by rw [ht, hs1]⟩
      · refine ⟨s2, ?_⟩
        rw [mainRun_size_err h1 h2 h3 h4 hgi hp heq]
        simp [hs1]

/-- Witness for claim C3 at a concrete transaction: two group inputs and a
terminator-only coverage array. -/
theorem claim_C3_witness :
    ∃ t, (mainRun envMinimal).2 = inputsBytesConcat envMinimal.groupInputs ++ t :=
  claim_C3 envMinimal wMinimal 20 68 rfl (by decide) rfl (by decide)

/-- Claim C4: the verifier succeeds only if `LockBytes.size` equals three
times the number of ops consumed including the `END_OF_LIST` terminator
plus 65; a lock of at most 65 bytes fails with `ARGUMENTS_LEN` before any
byte is absorbed (empty stream), and a size-equation mismatch after the
parse also fails with `ARGUMENTS_LEN`. -/
theorem claim_C4 (env : Env) (w : List Nat) (lo ls : Nat)
    (hwf : EnvWF env)
    (h1 : env.groupWitnesses.getD 0 (.err CKB_INDEX_OUT_OF_BOUND) = .ok w)
    (h2 : ¬ WITNESS_SIZE < w.length)
    (h3 : extract_witness_lock w = .ok (lo, ls)) :
    (ls ≤ SIGNATURE_SIZE → mainRun env = (ERROR_ARGUMENTS_LEN, [])) ∧
    (∀ n s1 s2, ¬ ls ≤ SIGNATURE_SIZE →
      hashGroupInputs env.groupInputs = (none, s1) →
      parseCoverage env w lo ls = (none, n, s2) →
      ls ≠ n * 3 + SIGNATURE_SIZE →
      mainRun env = (ERROR_ARGUMENTS_LEN, s1 ++ s2)) ∧
    ((mainRun env).1 = 0 →
      (parseCoverage env w lo ls).1 = none ∧
      ls = (parseCoverage env w lo ls).2.1 * 3 + SIGNATURE_SIZE) :=
  ⟨fun h4 => mainRun_short h1 h2 h3 h4,
   fun _ _ _ h4 hgi hp hne => mainRun_size_err h1 h2 h3 h4 hgi hp hne,
   fun hz => mainRun_zero_shape hwf h1 h2 h3 hz⟩

/-- Witness for claim C4 at a concrete transaction with a 10-byte lock. -/
theorem claim_C4_witness : mainRun envShort = (ERROR_ARGUMENTS_LEN, []) :=
  (claim_C4 envShort wShort 20 10
    (envBase_like_wf [.ok wShort] [] [] (by intro r hr; simp at hr))
    rfl (by decide) rfl).1 (by decide)

/-- Claim C5 as stated is false: a coverage region with no `END_OF_LIST`
op need not fail with `INVALID_LABEL` (−50).  In this concrete transaction
the 3-byte coverage region `00 00 00` contains no terminator, yet the
parse loop runs into the signature bytes, finds the nibble `0xF` there,
stops, and the verifier fails the size equation with `ARGUMENTS_LEN`
(−1). -/
theorem claim_C5_counterexample :
    noEndInRegion wNoEnd 20 68 = true ∧
    extract_witness_lock wNoEnd = .ok (20, 68) ∧
    (mainRun envNoEnd).1 = ERROR_ARGUMENTS_LEN ∧
    ERROR_ARGUMENTS_LEN ≠ ERROR_INVALID_LABEL := by
  refine ⟨by decide, by rfl, ?_, by decide⟩
  decide

/-- Claim C5, amended: for every `LockBytes` whose coverage region (the
first `LockBytes.size − 65` bytes) contains no `END_OF_LIST` op, the
verifier never returns success — it fails, though not necessarily with
`INVALID_LABEL`: when an `0xF` nibble among the signature bytes terminates
the loop the failure is `ARGUMENTS_LEN`, and host failures propagate. -/
theorem claim_C5 (env : Env) (w : List Nat) (lo ls : Nat)
    (hwf : EnvWF env)
    (h1 : env.groupWitnesses.getD 0 (.err CKB_INDEX_OUT_OF_BOUND) = .ok w)
    (h2 : ¬ WITNESS_SIZE < w.length)
    (h3 : extract_witness_lock w = .ok (lo, ls))
    (hnoend : noEndInRegion w lo ls = true) :
    (mainRun env).1 ≠ 0 := by
  intro hz
  obtain ⟨hpn, heq⟩ := mainRun_zero_shape hwf h1 h2 h3 hz
  rcases hp : parseCoverage env w lo ls with ⟨e2, n, s2⟩
  rw [hp] at hpn heq
  simp at hpn heq
  obtain ⟨hn0, hlabel⟩ := parseGo_none_last env w lo ls ls 0 n s2 (by
    have : parseCoverage env w lo ls = (none, n, s2) := by rw [hp, hpn]
    unfold parseCoverage at this
    exact this)
  simp [noEndInRegion, List.all_eq_true] at hnoend
  have hdiv : (ls - SIGNATURE_SIZE) / 3 = n := by
    simp [SIGNATURE_SIZE] at heq ⊢
    omega
  have := hnoend (n - 1) (by rw [hdiv]; omega)
  exact this hlabel

/-- Witness for the amended claim C5 at the concrete terminator-free
transaction of the counterexample. -/
theorem claim_C5_witness : (mainRun envNoEnd).1 ≠ 0 :=
  claim_C5 envNoEnd wNoEnd 20 68
    (envBase_like_wf [.ok wNoEnd] [] [] (by intro r hr; simp at hr))
    rfl (by decide) rfl (by decide)

/-- Claim C9: the verifier is deterministic — two invocations in which
every host read (witnesses, inputs, cells, fields, script, transaction
hash) and every trusted primitive returns identical data produce the same
digest stream and the same exit code; `mainRun` is a pure function of the
environment. -/
theorem claim_C9 (e1 e2 : Env)
    (hgw : e1.groupWitnesses = e2.groupWitnesses)
    (hiw : e1.inputWitnesses = e2.inputWitnesses)
    (hgi : e1.groupInputs = e2.groupInputs)
    (hli : ∀ i, e1.loadInput i = e2.loadInput i)
    (hlc : ∀ s i, e1.loadCell s i = e2.loadCell s i)
    (hlcd : ∀ s i, e1.loadCellData s i = e2.loadCellData s i)
    (hlcf : ∀ s i f, e1.loadCellByField s i f = e2.loadCellByField s i f)
    (hlif : ∀ s i f, e1.loadInputByField s i f = e2.loadInputByField s i f)
    (hth : e1.txHash = e2.txHash)
    (hsc : e1.script = e2.script)
    (hil : e1.inputsLen = e2.inputsLen)
    (hd : e1.secpDataRet = e2.secpDataRet)
    (hi : e1.secpInitRet = e2.secpInitRet)
    (hpar : ∀ s r, e1.secpParse s r = e2.secpParse s r)
    (hrec : ∀ s r m, e1.secpRecover s r m = e2.secpRecover s r m)
    (hser : ∀ p, e1.secpSerialize p = e2.secpSerialize p)
    (hb : ∀ x, e1.blake2b x = e2.blake2b x) :
    mainRun e1 = mainRun e2 := by
  have he : e1 = e2 := by
    cases e1
    cases e2
    rw [Env.mk.injEq]
    exact ⟨hgw, hiw, hgi, funext hli, funext fun s => funext (hlc s),
      funext fun s => funext (hlcd s),
      funext fun s => funext fun i => funext (hlcf s i),
      funext fun s => funext fun i => funext (hlif s i),
      hth, hsc, hil, hd, hi, funext fun s => funext (hpar s),
      funext fun s => funext fun r => funext (hrec s r),
      funext hser, funext hb⟩
  rw [he]

/-- Witness for claim C9: the determinism theorem applied to two
syntactically distinct but pointwise equal environments. -/
theorem claim_C9_witness :
    mainRun envMinimal =
      mainRun { envMinimal with blake2b := fun x => envMinimal.blake2b x } :=
  claim_C9 _ _ rfl rfl rfl (fun _ => rfl) (fun _ _ => rfl) (fun _ _ => rfl)
    (fun _ _ _ => rfl) (fun _ _ _ => rfl) rfl rfl rfl rfl rfl
    (fun _ _ => rfl) (fun _ _ _ => rfl) (fun _ => rfl) (fun _ => rfl)

/-- Claim C10: a witness-load failure in a loop position other than
`INDEX_OUT_OF_BOUND` is reported as `SYSCALL` (−3) rather than propagated,
and a script group whose first witness load fails in any way — including
`INDEX_OUT_OF_BOUND` for an absent witness — also yields `SYSCALL`, since
the first load treats every non-OK result as a syscall error. -/
theorem claim_C10 :
    (∀ env : Env, ∀ c : Int,
      env.groupWitnesses.getD 0 (.err CKB_INDEX_OUT_OF_BOUND) = .err c →
      mainRun env = (ERROR_SYSCALL, [])) ∧
    (∀ (pre : List HostRead) (c : Int) (rest : List HostRead),
      c ≠ CKB_INDEX_OUT_OF_BOUND →
      (∀ r ∈ pre, ∃ b, r = HostRead.ok b ∧ b.length ≤ WITNESS_SIZE) →
      (witnessTail (pre ++ .err c :: rest)).1 = some ERROR_SYSCALL) := by
  constructor
  · intro env c h
    unfold mainRun
    rw [h]
  · intro pre c rest hc hpre
    induction pre with
    | nil => simp [witnessTail, hc]
    | cons r pre ih =>
      obtain ⟨b, hb, hlen⟩ := hpre r (by simp)
      subst hb
      simp only [List.cons_append, witnessTail]
      rw [if_neg (by omega : ¬ WITNESS_SIZE < b.length)]
      rw [seqAbsorb_ok]
      exact ih fun r hr => hpre r (by simp [hr])

/-- Witness for claim C10: an absent first witness yields `SYSCALL`, and a
loop-position failure with code 2 yields `SYSCALL` as well. -/
theorem claim_C10_witness :
    mainRun { envBase with groupWitnesses := [.err 1] } = (ERROR_SYSCALL, []) ∧
    (witnessTail ([.ok [5]] ++ .err 2 :: [])).1 = some ERROR_SYSCALL :=
  ⟨claim_C10.1 _ 1 rfl,
   claim_C10.2 [.ok [5]] 2 [] (by decide)
     (by intro r hr; simp at hr; exact ⟨[5], hr, by subst hr; decide⟩)⟩

/-- Claim C1 is the spec's intended (fixed) behavior; the code diverges
from it.  For a coverage op with label `INPUT_OUTPOINT` (0x4), mask `0x02`
(index bit only, not `0xFF`), evaluated on a host whose input 0 has the
valid 36-byte outpoint `00 01 … 23`: the op absorbs the 32 bytes the
buggy `MolReader_OutPoint_get_tx_hash(&index_seg)` call reads from the
uninitialized segment — not the serialized 4-byte outpoint `index` field
`[32, 33, 34, 35]` the claim requires. -/
theorem claim_C1_bug :
    outpointStep envC1 0 2 = (none, uninitSegTxHashBytes) ∧
    uninitSegTxHashBytes ≠ outPointIndex outPointC1 ∧
    (outPointIndex outPointC1).length = 4 ∧
    uninitSegTxHashBytes.length = 32 := by
  refine ⟨by rfl, by decide, by rfl, by rfl⟩

/-- Claim C2 is the intended guard; the code's guard
`i + 3 > lock_bytes_seg.size` (with `i` counting 3-byte ops) diverges from
the claimed `(i+1)·3 > LockBytes.size`.  The two witness buffers below
agree on the whole 66-byte lock segment (all zero: each op parses as
`SIGHASH_ALL`), yet the parse results differ, because after position 21
the loop keeps reading past the end of the lock segment instead of failing
at position 22 as the claim requires: on the all-zero buffer it consumes
64 ops before the lax guard finally fires with `INVALID_LABEL`, while on
the buffer whose byte just past the segment is `0xF0` it terminates
successfully at op count 23 — so the guard does not fire at `(i+1)·3 >
size`, ops are read from beyond `LockBytes`, and bytes outside the
segment influence the result. -/
theorem claim_C2_bug :
    slice wOobA 20 66 = slice wOobB 20 66 ∧
    (parseCoverage envBase wOobA 20 66).1 = some ERROR_INVALID_LABEL ∧
    (parseCoverage envBase wOobA 20 66).2.1 = 64 ∧
    (parseCoverage envBase wOobB 20 66).1 = none ∧
    (parseCoverage envBase wOobB 20 66).2.1 = 23 := by
  refine ⟨by decide, by decide, by decide, by decide, by decide⟩

/-- Zeroing the range `[off, off + n)` erases whatever bytes were stored
there: overwriting the range first makes no difference. -/
theorem zeroRange_overwriteRange {w : List Nat} {off n : Nat} (s : List Nat)
    (hb : off + n ≤ w.length) (hs : s.length = n) :
    zeroRange (overwriteRange w off s) off n = zeroRange w off n := by
  have htl : (w.take off).length = off := by
    rw [List.length_take]
    omega
  have hstake : s.take (w.length - off) = s := List.take_of_length_le (by omega)
  unfold overwriteRange zeroRange
  rw [hs, hstake]
  have hv1 : (w.take off ++ s ++ w.drop (off + n)).take off = w.take off := by
    rw [List.append_assoc]
    exact List.take_left' htl
  have hv2 : (w.take off ++ s ++ w.drop (off + n)).drop (off + n) =
      w.drop (off + n) := by
    exact List.drop_left' (by rw [List.length_append, htl, hs])
  have hvlen : (w.take off ++ s ++ w.drop (off + n)).length = w.length := by
    simp only [List.length_append, htl, hs, List.length_drop]
    omega
  rw [hv1, hv2, hvlen]

/-- The finalization phase absorbs the 8-byte witness length and the
zeroed witness right after the coverage stream. -/
theorem finalizePhase_snd_shape (env : Env) (w : List Nat) (lo n : Nat)
    (s1 s2 : List Nat) :
    ∃ t, (finalizePhase env w lo n s1 s2).2 =
      s1 ++ s2 ++ (u64leBytes w.length ++
        zeroRange w (lo + n * 3) SIGNATURE_SIZE) ++ t := by
  unfold finalizePhase
  rcases h4 : witnessTail (env.groupWitnesses.drop 1) with ⟨e4, s4⟩
  cases e4 with
  | some c =>
    refine ⟨s4, ?_⟩
    simp [h4]
  | none =>
    rcases h5 : witnessTail (env.inputWitnesses.drop env.inputsLen) with ⟨e5, s5⟩
    cases e5 with
    | some c =>
      refine ⟨s4 ++ s5, ?_⟩
      simp [h4, h5]
    | none =>
      refine ⟨s4 ++ s5, ?_⟩
      simp [h4, h5, verifyStage_snd]

/-- Claim C6: once the coverage array is consumed with the size equation
holding, the 65 signature bytes at
`LockBytes[sighash_array_len .. sighash_array_len + 65]` are the ones
handed (from the unmodified witness) to the signature verifier, those 65
bytes are zeroed in the witness buffer, and the digest absorbs the 8-byte
length of the modified first witness followed by its full bytes — so the
signed message commits to the witness with a zeroed signature field and
absorbs the same bytes whatever the signature field contained. -/
theorem claim_C6 (env : Env) (w : List Nat) (lo ls n : Nat)
    (s1 s2 : List Nat)
    (h1 : env.groupWitnesses.getD 0 (.err CKB_INDEX_OUT_OF_BOUND) = .ok w)
    (h2 : ¬ WITNESS_SIZE < w.length)
    (h3 : extract_witness_lock w = .ok (lo, ls))
    (hgi : hashGroupInputs env.groupInputs = (none, s1))
    (hp : parseCoverage env w lo ls = (none, n, s2))
    (heq : ls = n * 3 + SIGNATURE_SIZE) :
    mainRun env = finalizePhase env w lo n s1 s2 ∧
    (∃ t, (mainRun env).2 = s1 ++ s2 ++ (u64leBytes w.length ++
      zeroRange w (lo + n * 3) SIGNATURE_SIZE) ++ t) ∧
    (∀ sig, sig.length = SIGNATURE_SIZE →
      zeroRange (overwriteRange w (lo + n * 3) sig) (lo + n * 3)
          SIGNATURE_SIZE =
        zeroRange w (lo + n * 3) SIGNATURE_SIZE) := by
  have hn1 : 1 ≤ n :=
    (parseGo_none_last env w lo ls ls 0 n s2 (by
      unfold parseCoverage at hp
      exact hp)).1
  have h4 : ¬ ls ≤ SIGNATURE_SIZE := by
    simp [SIGNATURE_SIZE] at heq ⊢
    omega
  have hmain := mainRun_final h1 h2 h3 h4 hgi hp heq
  obtain ⟨hlo, hbound⟩ := extract_witness_lock_bounds h3
  refine ⟨hmain, ?_, ?_⟩
  · rw [hmain]
    exact finalizePhase_snd_shape env w lo n s1 s2
  · intro sig hsig
    exact zeroRange_overwriteRange sig (by omega) hsig

/-- Witness for claim C6 at the concrete minimal transaction. -/
theorem claim_C6_witness :
    mainRun envMinimal = finalizePhase envMinimal wMinimal 20 1 [1, 2, 3, 4, 5] [] ∧
    (∃ t, (mainRun envMinimal).2 = [1, 2, 3, 4, 5] ++ [] ++
      (u64leBytes wMinimal.length ++
        zeroRange wMinimal (20 + 1 * 3) SIGNATURE_SIZE) ++ t) ∧
    (∀ sig, sig.length = SIGNATURE_SIZE →
      zeroRange (overwriteRange wMinimal (20 + 1 * 3) sig) (20 + 1 * 3)
          SIGNATURE_SIZE =
        zeroRange wMinimal (20 + 1 * 3) SIGNATURE_SIZE) :=
  claim_C6 envMinimal wMinimal 20 68 1 [1, 2, 3, 4, 5] []
    rfl (by decide) rfl rfl rfl rfl

/-- Claim C7: given an initialized secp context, the verifier parses the
64 signature bytes as a compact recoverable signature with recovery id
from byte 64 (failure yields `SECP_PARSE_SIGNATURE`), recovers the public
key over the message (failure yields `SECP_RECOVER_PUBKEY`), serializes it
compressed (failure yields `SECP_SERIALIZE_PUBKEY`), hashes it with
BLAKE2b-256 and takes 20 bytes, requires the script args to be exactly 20
bytes (else `ARGUMENTS_LEN`), and returns `PUBKEY_BLAKE160_HASH` exactly
when those 20 bytes differ from the args, 0 exactly when they agree. -/
theorem claim_C7 (env : Env) (message sigBytes S : List Nat)
    (hd : env.secpDataRet = 0) (hi : env.secpInitRet = 0) :
    (env.secpParse (sigBytes.take 64) (byteAt sigBytes 64) = false →
      (verifyStage env message sigBytes S).1 = ERROR_SECP_PARSE_SIGNATURE) ∧
    (env.secpParse (sigBytes.take 64) (byteAt sigBytes 64) = true →
      env.secpRecover (sigBytes.take 64) (byteAt sigBytes 64) message = none →
      (verifyStage env message sigBytes S).1 = ERROR_SECP_RECOVER_PUBKEY) ∧
    (∀ pk, env.secpParse (sigBytes.take 64) (byteAt sigBytes 64) = true →
      env.secpRecover (sigBytes.take 64) (byteAt sigBytes 64) message = some pk →
      env.secpSerialize pk = none →
      (verifyStage env message sigBytes S).1 = ERROR_SECP_SERIALIZE_PUBKEY) ∧
    (∀ pk pk33 sc,
      env.secpParse (sigBytes.take 64) (byteAt sigBytes 64) = true →
      env.secpRecover (sigBytes.take 64) (byteAt sigBytes 64) message = some pk →
      env.secpSerialize pk = some pk33 →
      env.script = .ok sc → ¬ SCRIPT_SIZE < sc.length → scriptVerify sc →
      ((argsRawBytes sc).length ≠ 20 →
        (verifyStage env message sigBytes S).1 = ERROR_ARGUMENTS_LEN) ∧
      ((argsRawBytes sc).length = 20 →
        ((verifyStage env message sigBytes S).1 = ERROR_PUBKEY_BLAKE160_HASH ↔
          argsRawBytes sc ≠ (env.blake2b pk33).take 20) ∧
        ((verifyStage env message sigBytes S).1 = 0 ↔
          argsRawBytes sc = (env.blake2b pk33).take 20))) := by
  refine ⟨?_, ?_, ?_, ?_⟩
  · intro hpar
    unfold verifyStage
    simp [hd, hi, hpar]
  · intro hpar hrec
    unfold verifyStage
    simp [hd, hi, hpar, hrec]
  · intro pk hpar hrec hser
    unfold verifyStage
    simp [hd, hi, hpar, hrec, hser]
  · intro pk pk33 sc hpar hrec hser hsc hlen hv
    constructor
    · intro hargs
      unfold verifyStage
      rw [hsc]
      simp [hd, hi, hpar, hrec, hser, hlen, hv, hargs]
    · intro hargs
      by_cases hcmp : argsRawBytes sc = (env.blake2b pk33).take 20
      · have h20 : ¬ (env.blake2b pk33).length < 20 := by
          rw [hcmp] at hargs
          simp [List.length_take] at hargs
          omega
        constructor <;>
          (unfold verifyStage
           rw [hsc]
           simp [hd, hi, hpar, hrec, hser, hlen, hv, hargs, hcmp, h20,
             ERROR_PUBKEY_BLAKE160_HASH])
      · constructor <;>
          (unfold verifyStage
           rw [hsc]
           simp [hd, hi, hpar, hrec, hser, hlen, hv, hargs, hcmp,
             ERROR_PUBKEY_BLAKE160_HASH])

/-- Witness for claim C7: a failing signature parse yields
`SECP_PARSE_SIGNATURE`. -/
theorem claim_C7_witness :
    (verifyStage envBase [] [] []).1 = ERROR_SECP_PARSE_SIGNATURE :=
  (claim_C7 envBase [] [] [] rfl rfl).1 rfl

/-- `hash_script_fields` on a successfully loaded and verified script
absorbs the selected sub-field segments in declaration order. -/
theorem hash_script_fields_ok {env : Env} {src : CellSrc} {idx : Nat}
    {f : CellField} (m : Nat) {b : List Nat}
    (hl : env.loadCellByField src idx f = .ok b)
    (hsz : ¬ SCRIPT_SIZE < b.length) (hv : scriptVerify b) :
    hash_script_fields env src idx f m =
      (none,
        (if m &&& 16 ≠ 0 then codeHashSeg b else []) ++
        (if m &&& 32 ≠ 0 then argsSeg b else []) ++
        (if m &&& 64 ≠ 0 then hashTypeSeg b else [])) := by
  unfold hash_script_fields
  rw [hl]
  simp [hsz, hv]

/-- A mask with the three type bits clear has each bit clear. -/
theorem land14_zero {m : Nat} (h : m &&& 14 = 0) :
    m &&& 2 = 0 ∧ m &&& 4 = 0 ∧ m &&& 8 = 0 := by
  refine ⟨?_, ?_, ?_⟩
  · have : (m &&& 14) &&& 2 = m &&& 2 := by
      rw [Nat.land_assoc, (show (14 &&& 2 : Nat) = 2 by decide)]
    rw [← this, h]
    simp
  · have : (m &&& 14) &&& 4 = m &&& 4 := by
      rw [Nat.land_assoc, (show (14 &&& 4 : Nat) = 4 by decide)]
    rw [← this, h]
    simp
  · have : (m &&& 14) &&& 8 = m &&& 8 := by
      rw [Nat.land_assoc, (show (14 &&& 8 : Nat) = 8 by decide)]
    rw [← this, h]
    simp

/-- A mask with the three lock bits clear has each bit clear. -/
theorem land112_zero {m : Nat} (h : m &&& 112 = 0) :
    m &&& 16 = 0 ∧ m &&& 32 = 0 ∧ m &&& 64 = 0 := by
  refine ⟨?_, ?_, ?_⟩
  · have : (m &&& 112) &&& 16 = m &&& 16 := by
      rw [Nat.land_assoc, (show (112 &&& 16 : Nat) = 16 by decide)]
    rw [← this, h]
    simp
  · have : (m &&& 112) &&& 32 = m &&& 32 := by
      rw [Nat.land_assoc, (show (112 &&& 32 : Nat) = 32 by decide)]
    rw [← this, h]
    simp
  · have : (m &&& 112) &&& 64 = m &&& 64 := by
      rw [Nat.land_assoc, (show (112 &&& 64 : Nat) = 64 by decide)]
    rw [← this, h]
    simp

/-- The translation of the type bits to lock positions is exactly
positional: bit `0x02` lands on `0x10`, `0x04` on `0x20`, `0x08` on
`0x40`. -/
theorem typeBits_spec (m : Nat) :
    (typeBitsToLockBits m &&& 16 = 0 ↔ m &&& 2 = 0) ∧
    (typeBitsToLockBits m &&& 32 = 0 ↔ m &&& 4 = 0) ∧
    (typeBitsToLockBits m &&& 64 = 0 ↔ m &&& 8 = 0) := by
  unfold typeBitsToLockBits
  by_cases h2 : m &&& 2 = 0 <;> by_cases h4 : m &&& 4 = 0 <;>
    by_cases h8 : m &&& 8 = 0 <;>
      simp [h2, h4, h8] <;> decide

/-- Claim C8: for a cell-label coverage op with mask other than `0xFF`,
the selected sub-fields are absorbed in the fixed order capacity, type
script, lock script, data (`INPUT_CELL_SINCE` appends the 8-byte since);
type bits `0x02/0x04/0x08` and lock bits `0x10/0x20/0x40` positionally
select `code_hash`, `args`, `hash_type` through the single shared helper
`hash_script_fields`, which absorbs the selected sub-fields in declaration
order and ignores mask bits without an assigned lock position. -/
theorem claim_C8 (env : Env) (src : CellSrc) (idx mask : Nat)
    (sinceFlag : Bool) (cb tb lb db sb : List Nat)
    (hmask : mask ≠ 255)
    (hcap : env.loadCellByField src idx .capacity = .ok cb)
    (htype : env.loadCellByField src idx .typeScript = .ok tb)
    (htsz : ¬ SCRIPT_SIZE < tb.length) (htv : scriptVerify tb)
    (hlock : env.loadCellByField src idx .lockScript = .ok lb)
    (hlsz : ¬ SCRIPT_SIZE < lb.length) (hlv : scriptVerify lb)
    (hdata : env.loadCellData src idx = .ok db)
    (hsince : env.loadInputByField src idx .since = .ok sb)
    (hssz : ¬ 8 < sb.length) :
    cellStep env src idx mask sinceFlag =
      (none,
        (if mask &&& 1 ≠ 0 then take8pad cb else []) ++
        ((if mask &&& 2 ≠ 0 then codeHashSeg tb else []) ++
         (if mask &&& 4 ≠ 0 then argsSeg tb else []) ++
         (if mask &&& 8 ≠ 0 then hashTypeSeg tb else [])) ++
        ((if mask &&& 16 ≠ 0 then codeHashSeg lb else []) ++
         (if mask &&& 32 ≠ 0 then argsSeg lb else []) ++
         (if mask &&& 64 ≠ 0 then hashTypeSeg lb else [])) ++
        (if mask &&& 128 ≠ 0 then db else []) ++
        (if sinceFlag then take8pad sb else [])) ∧
    (∀ m, hash_script_fields env src idx .lockScript m =
      hash_script_fields env src idx .lockScript (m &&& 112)) := by
  constructor
  · have hcapstep :
        (if mask &&& 1 ≠ 0 then capacityStep env src idx else (none, [])) =
          ((none : Option Int), if mask &&& 1 ≠ 0 then take8pad cb else []) := by
      by_cases h : mask &&& 1 ≠ 0
      · rw [if_pos h, if_pos h]
        unfold capacityStep
        rw [hcap]
      · rw [if_neg h, if_neg h]
    have htstep :
        (if mask &&& 14 ≠ 0 then
            hash_script_fields env src idx .typeScript (typeBitsToLockBits mask)
          else (none, [])) =
          ((none : Option Int),
            (if mask &&& 2 ≠ 0 then codeHashSeg tb else []) ++
            (if mask &&& 4 ≠ 0 then argsSeg tb else []) ++
            (if mask &&& 8 ≠ 0 then hashTypeSeg tb else [])) := by
      by_cases h : mask &&& 14 ≠ 0
      · rw [if_pos h, hash_script_fields_ok (typeBitsToLockBits mask) htype htsz htv]
        obtain ⟨hb2, hb4, hb8⟩ := typeBits_spec mask
        simp [hb2, hb4, hb8]
      · rw [if_neg h]
        simp at h
        obtain ⟨hz2, hz4, hz8⟩ := land14_zero h
        simp [hz2, hz4, hz8]
    have hlstep :
        (if mask &&& 112 ≠ 0 then
            hash_script_fields env src idx .lockScript mask
          else (none, [])) =
          ((none : Option Int),
            (if mask &&& 16 ≠ 0 then codeHashSeg lb else []) ++
            (if mask &&& 32 ≠ 0 then argsSeg lb else []) ++
            (if mask &&& 64 ≠ 0 then hashTypeSeg lb else [])) := by
      by_cases h : mask &&& 112 ≠ 0
      · rw [if_pos h, hash_script_fields_ok mask hlock hlsz hlv]
      · rw [if_neg h]
        simp at h
        obtain ⟨hz16, hz32, hz64⟩ := land112_zero h
        simp [hz16, hz32, hz64]
    have hdstep :
        (if mask &&& 128 ≠ 0 then load_and_hash (env.loadCellData src idx)
          else (none, [])) =
          ((none : Option Int), if mask &&& 128 ≠ 0 then db else []) := by
      by_cases h : mask &&& 128 ≠ 0
      · rw [if_pos h, if_pos h, hdata, load_and_hash_ok]
      · rw [if_neg h, if_neg h]
    have hsstep :
        (if sinceFlag then sinceStep env src idx else (none, [])) =
          ((none : Option Int), if sinceFlag then take8pad sb else []) := by
      cases sinceFlag
      · simp
      · simp only [if_true]
        unfold sinceStep
        rw [hsince]
        simp [hssz]
    unfold cellStep
    rw [if_neg hmask, hcapstep, htstep, hlstep, hdstep, hsstep]
    simp [seqAbsorb]
  · intro m
    have h16 : (m &&& 112) &&& 16 = m &&& 16 := by
      rw [Nat.land_assoc, (show (112 &&& 16 : Nat) = 16 by decide)]
    have h32 : (m &&& 112) &&& 32 = m &&& 32 := by
      rw [Nat.land_assoc, (show (112 &&& 32 : Nat) = 32 by decide)]
    have h64 : (m &&& 112) &&& 64 = m &&& 64 := by
      rw [Nat.land_assoc, (show (112 &&& 64 : Nat) = 64 by decide)]
    rw [hash_script_fields_ok m hlock hlsz hlv,
      hash_script_fields_ok (m &&& 112) hlock hlsz hlv, h16, h32, h64]

/-- Witness for claim C8 at mask `0x66` (capacity off; type code_hash and
args on; lock args and hash_type on) with the since flag set. -/
theorem claim_C8_witness :
    cellStep envC8 .input 0 102 true =
      (none,
        (if 102 &&& 1 ≠ 0 then take8pad [100, 0, 0, 0, 0, 0, 0, 0] else []) ++
        ((if 102 &&& 2 ≠ 0 then codeHashSeg scriptT else []) ++
         (if 102 &&& 4 ≠ 0 then argsSeg scriptT else []) ++
         (if 102 &&& 8 ≠ 0 then hashTypeSeg scriptT else [])) ++
        ((if 102 &&& 16 ≠ 0 then codeHashSeg scriptL else []) ++
         (if 102 &&& 32 ≠ 0 then argsSeg scriptL else []) ++
         (if 102 &&& 64 ≠ 0 then hashTypeSeg scriptL else [])) ++
        (if 102 &&& 128 ≠ 0 then [1, 2, 3] else []) ++
        (if true then take8pad [8, 7, 6, 5, 4, 3, 2, 1] else [])) ∧
    (∀ m, hash_script_fields envC8 .input 0 .lockScript m =
      hash_script_fields envC8 .input 0 .lockScript (m &&& 112)) :=
  claim_C8 envC8 .input 0 102 true _ _ _ _ _ (by decide) rfl rfl
    (by decide) (by decide) rfl (by decide) (by decide) rfl rfl (by decide)

end OpenTx
